import Mathlib

/-!
Verification development for the pixie photo service core.

The Go source is shallowly embedded: pure decision logic of each handler,
the auth core, the plugin loader handshake, the thumbnail worker retry loop
and the metadata merge are translated into executable Lean definitions.
Cryptographic token strings are abstracted: a token string is either a
well-formed signed token (algorithm, signing key, claims) or an arbitrary
malformed string; signature verification succeeds exactly when the token
was signed with the expected algorithm family and the configured key.
Wall-clock instants are integers (seconds); the token-bucket rate limiter
is abstracted by the boolean outcome of its Allow call at the instant of
the validation.
-/

/-- Signing algorithm selected by the JWT_ALGO configuration. -/
inductive JWTAlgo
| hs256
| rs256
| otherAlgo (name : String)
deriving DecidableEq, Repr

/-- Registered claims plus the namespaced custom map (auth.Claims).
Custom claim values are abstracted to strings. -/
structure Claims where
  sub : String
  iat : Int
  exp : Option Int
  custom : List (String × String)
deriving DecidableEq, Repr

/-- A structurally well-formed JWT: the algorithm it was signed with,
the key material used to sign, and its claims. -/
structure SignedToken where
  algo : JWTAlgo
  key : String
  claims : Claims
deriving DecidableEq, Repr

/-- A token string: either a well-formed signed token or garbage. -/
inductive TokenString
| wellFormed (t : SignedToken)
| malformed (raw : String)
deriving DecidableEq, Repr

/-- The error values declared by the auth package: ErrInvalidToken,
ErrTokenExpired, ErrInvalidClaims, ErrRateLimitExceeded, plus the two
fmt.Errorf shapes produced by ValidateToken (wrapped parse failures and
the unsupported-algorithm error).  The source declares no revocation-
specific error value. -/
inductive AuthError
| invalidToken
| tokenExpired
| invalidClaims
| rateLimitExceeded
| parseFailure (msg : String)
| unsupportedAlgorithm
deriving DecidableEq, Repr

/-- auth.Config together with the key material NewService loads:
the public key read for RS256 and the private key available to
GenerateToken.  A matching RSA key pair is modelled by the private and
public fields holding the same key identifier. -/
structure AuthConfig where
  jwtAlgo : JWTAlgo
  jwtSecret : String
  jwtPublicKey : Option String
  jwtPrivateKey : Option String
  tokenExpiration : Int
deriving DecidableEq, Repr

/-- Process-wide mutable auth state: the token blacklist
(map from token string to eviction deadline). -/
structure AuthState where
  tokenBlacklist : List (TokenString × Int)
deriving DecidableEq, Repr

/-- Membership test on the blacklist map. -/
def blacklistContains (st : AuthState) (tok : TokenString) : Bool :=
  st.tokenBlacklist.any (fun p => decide (p.1 = tok))

/-- Go map assignment tokenBlacklist[tok] = e: replace the binding if the
key is present, otherwise add it. -/
def blacklistInsert (bl : List (TokenString × Int)) (tok : TokenString) (e : Int) :
    List (TokenString × Int) :=
  if bl.any (fun p => decide (p.1 = tok)) then
    bl.map (fun p => if p.1 = tok then (tok, e) else p)
  else
    bl ++ [(tok, e)]

/-- Service.GenerateToken: claims are subject, iat = now,
exp = now + configured lifetime; HS256 signs with the shared secret,
RS256 requires and signs with the private key, any other algorithm is
rejected. -/
def GenerateToken (cfg : AuthConfig) (now : Int) (subject : String)
    (customClaims : List (String × String)) : Except String TokenString :=
  let expirationTime := now + cfg.tokenExpiration
  let claims : Claims := ⟨subject, now, some expirationTime, customClaims⟩
  match cfg.jwtAlgo with
  | JWTAlgo.hs256 => Except.ok (TokenString.wellFormed ⟨JWTAlgo.hs256, cfg.jwtSecret, claims⟩)
  | JWTAlgo.rs256 =>
      match cfg.jwtPrivateKey with
      | none => Except.error ("RS256 requires a private key file")
      | some priv => Except.ok (TokenString.wellFormed ⟨JWTAlgo.rs256, priv, claims⟩)
  | JWTAlgo.otherAlgo _ => Except.error ("unsupported algorithm")

/-- The key the configured key function hands to the verifier:
the shared secret for HS256, the loaded public key for RS256. -/
def verificationKey (cfg : AuthConfig) : Option String :=
  match cfg.jwtAlgo with
  | JWTAlgo.hs256 => some cfg.jwtSecret
  | JWTAlgo.rs256 => cfg.jwtPublicKey
  | JWTAlgo.otherAlgo _ => none

/-- Outcome of jwt.ParseWithClaims with the configured key function. -/
inductive ParseOutcome
| parsed (c : Claims)
| errExpired
| errOther (msg : String)
deriving DecidableEq, Repr

/-- jwt.ParseWithClaims: a malformed string fails; a signing-method
mismatch with the configured family fails via the key function; a wrong
key fails signature verification; an exp not strictly in the future is
the library's ErrTokenExpired; otherwise the claims are returned. -/
def jwtParseWithClaims (cfg : AuthConfig) (now : Int) (tok : TokenString) : ParseOutcome :=
  match tok with
  | TokenString.malformed _ => ParseOutcome.errOther ("token is malformed")
  | TokenString.wellFormed t =>
      if t.algo ≠ cfg.jwtAlgo then ParseOutcome.errOther ("unexpected signing method")
      else
        match verificationKey cfg with
        | none => ParseOutcome.errOther ("key is invalid")
        | some k =>
            if t.key ≠ k then ParseOutcome.errOther ("signature is invalid")
            else
              match t.claims.exp with
              | some e => if e ≤ now then ParseOutcome.errExpired else ParseOutcome.parsed t.claims
              | none => ParseOutcome.parsed t.claims

/-- Service.ValidateToken, step for step: rate-limit admission, blacklist
lookup (returns ErrInvalidToken), algorithm dispatch, parse, the redundant
re-check of exp, and the non-empty-subject check. -/
def ValidateToken (cfg : AuthConfig) (st : AuthState) (limiterAllow : Bool) (now : Int)
    (tokenString : TokenString) : Except AuthError (String × List (String × String)) :=
  if !limiterAllow then Except.error AuthError.rateLimitExceeded
  else if blacklistContains st tokenString then Except.error AuthError.invalidToken
  else
    match cfg.jwtAlgo with
    | JWTAlgo.otherAlgo _ => Except.error AuthError.unsupportedAlgorithm
    | _ =>
        match jwtParseWithClaims cfg now tokenString with
        | ParseOutcome.errExpired => Except.error AuthError.tokenExpired
        | ParseOutcome.errOther m => Except.error (AuthError.parseFailure m)
        | ParseOutcome.parsed claims =>
            match claims.exp with
            | some e =>
                if e < now then Except.error AuthError.tokenExpired
                else if claims.sub = "" then Except.error AuthError.invalidClaims
                else Except.ok (claims.sub, claims.custom)
            | none =>
                if claims.sub = "" then Except.error AuthError.invalidClaims
                else Except.ok (claims.sub, claims.custom)

/-- The eviction deadline RevokeToken records: the token's own exp claim
when the claims parse (the key function result is ignored for this), and
now + 24 h otherwise. -/
def revokeDeadline (now : Int) (tokenString : TokenString) : Int :=
  match tokenString with
  | TokenString.wellFormed t =>
      match t.claims.exp with
      | some e => e
      | none => now + 86400
  | TokenString.malformed _ => now + 86400

/-- Service.RevokeToken: insert the token into the blacklist keyed to its
eviction deadline. -/
def RevokeToken (st : AuthState) (now : Int) (tokenString : TokenString) : AuthState :=
  ⟨blacklistInsert st.tokenBlacklist tokenString (revokeDeadline now tokenString)⟩

/-- One pass of the hourly cleanup goroutine: drop every blacklist entry
whose deadline lies strictly in the past (now.After(expiry)). -/
def sweepBlacklist (now : Int) (st : AuthState) : AuthState :=
  ⟨st.tokenBlacklist.filter (fun p => !decide (now > p.2))⟩

/-- A service configuration whose signing and verification keys agree:
HS256 always does; RS256 does when the loaded public key matches the
private key used for signing. -/
def wellConfigured (cfg : AuthConfig) : Prop :=
  cfg.jwtAlgo = JWTAlgo.hs256 ∨
    (cfg.jwtAlgo = JWTAlgo.rs256 ∧ ∃ k, cfg.jwtPrivateKey = some k ∧ cfg.jwtPublicKey = some k)

lemma blacklistInsert_bindings (bl : List (TokenString × Int)) (tok : TokenString) (e : Int) :
    ∀ p ∈ blacklistInsert bl tok e, p.1 = tok → p.2 = e := by
  intro p hp hfst
  unfold blacklistInsert at hp
  split at hp
  · rcases List.mem_map.mp hp with ⟨q, hq, hpq⟩
    by_cases hq1 : q.1 = tok
    · rw [if_pos hq1] at hpq
      rw [← hpq]
    · rw [if_neg hq1] at hpq
      rw [← hpq] at hfst
      exact absurd hfst hq1
  · rename_i hnone
    rcases List.mem_append.mp hp with h | h
    · exfalso
      apply hnone
      exact List.any_eq_true.mpr ⟨p, h, decide_eq_true hfst⟩
    · simp at h
      rw [h]

lemma blacklistInsert_mem (bl : List (TokenString × Int)) (tok : TokenString) (e : Int) :
    ∃ p ∈ blacklistInsert bl tok e, p.1 = tok := by
  unfold blacklistInsert
  split
  · rename_i h
    rcases List.any_eq_true.mp h with ⟨q, hq, hq1⟩
    refine ⟨(tok, e), ?_, rfl⟩
    refine List.mem_map.mpr ⟨q, hq, ?_⟩
    simp [of_decide_eq_true hq1]
  · exact ⟨(tok, e), by simp, rfl⟩

lemma blacklistContains_revoke (st : AuthState) (now : Int) (tok : TokenString) :
    blacklistContains (RevokeToken st now tok) tok = true := by
  rcases blacklistInsert_mem st.tokenBlacklist tok (revokeDeadline now tok) with ⟨p, hp, hfst⟩
  exact List.any_eq_true.mpr ⟨p, hp, decide_eq_true hfst⟩

lemma validate_blacklisted (cfg : AuthConfig) (st : AuthState) (now : Int) (tok : TokenString)
    (h : blacklistContains st tok = true) :
    ValidateToken cfg st true now tok = Except.error AuthError.invalidToken := by
  simp [ValidateToken, h]


/-- Claim C2, counterexample: with the HS256 service, a token valid at
time 10 (exp 100) is revoked at time 0; the next validation at time 10
fails with AuthError.invalidToken, the ordinary invalid-token error value
(the auth package declares no revocation-specific error kind), refuting
that revoked tokens fail with a Revoked kind distinct from Invalid. -/
theorem C2_revoked_counterexample :
    ValidateToken ⟨JWTAlgo.hs256, ("secret-k"), none, none, 86400⟩ ⟨[]⟩ true 10
      (TokenString.wellFormed ⟨JWTAlgo.hs256, ("secret-k"), ⟨("user-1"), 0, some 100, []⟩⟩) =
      Except.ok (("user-1"), []) ∧
    ValidateToken ⟨JWTAlgo.hs256, ("secret-k"), none, none, 86400⟩
      (RevokeToken ⟨[]⟩ 0
        (TokenString.wellFormed ⟨JWTAlgo.hs256, ("secret-k"), ⟨("user-1"), 0, some 100, []⟩⟩))
      true 10
      (TokenString.wellFormed ⟨JWTAlgo.hs256, ("secret-k"), ⟨("user-1"), 0, some 100, []⟩⟩) =
      Except.error AuthError.invalidToken := by
  exact ⟨rfl, rfl⟩

/-- Claim C2, amended: after RevokeToken(t), every rate-limit-admitted
ValidateToken(t) call fails with ErrInvalidToken (the same error value as
any other invalid token, not a distinct Revoked kind), for as long as the
blacklist entry is present; the entry is keyed to the token's exp (or
now + 24 h when unparseable) and a cleanup sweep removes it exactly when
the sweep time is strictly past that deadline. -/
theorem C2_revocation_behaviour (cfg : AuthConfig) (st : AuthState)
    (now now2 now3 : Int) (tok : TokenString) :
    ValidateToken cfg (RevokeToken st now tok) true now2 tok =
      Except.error AuthError.invalidToken ∧
    (now3 ≤ revokeDeadline now tok →
      blacklistContains (sweepBlacklist now3 (RevokeToken st now tok)) tok = true) ∧
    (now3 > revokeDeadline now tok →
      blacklistContains (sweepBlacklist now3 (RevokeToken st now tok)) tok = false) := by
  refine ⟨validate_blacklisted cfg _ now2 tok (blacklistContains_revoke st now tok), ?_, ?_⟩
  · intro hle
    rcases blacklistInsert_mem st.tokenBlacklist tok (revokeDeadline now tok) with ⟨p, hp, hfst⟩
    have hsnd : p.2 = revokeDeadline now tok :=
      blacklistInsert_bindings st.tokenBlacklist tok (revokeDeadline now tok) p hp hfst
    apply List.any_eq_true.mpr
    refine ⟨p, ?_, decide_eq_true hfst⟩
    apply List.mem_filter.mpr
    refine ⟨hp, ?_⟩
    simp only [Bool.not_eq_true', decide_eq_false_iff_not]
    omega
  · intro hgt
    refine Bool.eq_false_iff.mpr ?_
    intro hcontains
    rcases List.any_eq_true.mp hcontains with ⟨p, hp, hfst⟩
    have hfst2 := of_decide_eq_true hfst
    have hmem := List.mem_filter.mp hp
    have hsnd : p.2 = revokeDeadline now tok :=
      blacklistInsert_bindings st.tokenBlacklist tok (revokeDeadline now tok) p hmem.1 hfst2
    have hkeep := hmem.2
    simp only [Bool.not_eq_true', decide_eq_false_iff_not] at hkeep
    omega

/-- Claim C2 witness: concrete instance of the amended revocation
behaviour at token exp 100, sweep time 200. -/
theorem C2_revocation_behaviour_witness :
    ValidateToken ⟨JWTAlgo.hs256, ("k0"), none, none, 86400⟩
      (RevokeToken ⟨[]⟩ 0
        (TokenString.wellFormed ⟨JWTAlgo.hs256, ("k0"), ⟨("u"), 0, some 100, []⟩⟩))
      true 10
      (TokenString.wellFormed ⟨JWTAlgo.hs256, ("k0"), ⟨("u"), 0, some 100, []⟩⟩) =
      Except.error AuthError.invalidToken ∧
    blacklistContains
      (sweepBlacklist 200
        (RevokeToken ⟨[]⟩ 0
          (TokenString.wellFormed ⟨JWTAlgo.hs256, ("k0"), ⟨("u"), 0, some 100, []⟩⟩)))
      (TokenString.wellFormed ⟨JWTAlgo.hs256, ("k0"), ⟨("u"), 0, some 100, []⟩⟩) = false := by
  have h := C2_revocation_behaviour ⟨JWTAlgo.hs256, ("k0"), none, none, 86400⟩ ⟨[]⟩ 0 10 200
    (TokenString.wellFormed ⟨JWTAlgo.hs256, ("k0"), ⟨("u"), 0, some 100, []⟩⟩)
  exact ⟨h.1, h.2.2 (by decide)⟩

/-- Claim C7: with a consistently configured service (HS256, or RS256 with
a matching key pair), for every non-empty subject and custom-claims map,
a generated token validates before its exp - given rate-limit admission
and no revocation - and yields exactly the original subject and custom
map. -/
theorem C7_token_round_trip (cfg : AuthConfig) (st : AuthState) (now now2 : Int)
    (subject : String) (customClaims : List (String × String)) (tok : TokenString)
    (hcfg : wellConfigured cfg) (hsub : subject ≠ "")
    (hgen : GenerateToken cfg now subject customClaims = Except.ok tok)
    (hnb : blacklistContains st tok = false)
    (hbefore : now2 < now + cfg.tokenExpiration) :
    ValidateToken cfg st true now2 tok = Except.ok (subject, customClaims) := by
  have hnotle : ¬(now + cfg.tokenExpiration ≤ now2) := by omega
  have hnotlt : ¬(now + cfg.tokenExpiration < now2) := by omega
  rcases hcfg with halgo | ⟨halgo, k, hpriv, hpub⟩
  · simp only [GenerateToken, halgo] at hgen
    have htok := (Except.ok.injEq _ _).mp hgen.symm
    subst htok
    simp [ValidateToken, jwtParseWithClaims, verificationKey, halgo, hnb, hsub, hnotle, hnotlt]
  · simp only [GenerateToken, halgo, hpriv] at hgen
    have htok := (Except.ok.injEq _ _).mp hgen.symm
    subst htok
    simp [ValidateToken, jwtParseWithClaims, verificationKey, halgo, hpub, hnb, hsub, hnotle,
      hnotlt]

/-- Claim C7 witness: round trip at subject alice with one custom claim,
HS256 service, generation at time 0, validation at time 10. -/
theorem C7_token_round_trip_witness :
    ValidateToken ⟨JWTAlgo.hs256, ("s7"), none, none, 86400⟩ ⟨[]⟩ true 10
      (TokenString.wellFormed
        ⟨JWTAlgo.hs256, ("s7"), ⟨("alice"), 0, some 86400, [(("role"), ("admin"))]⟩⟩) =
      Except.ok (("alice"), [(("role"), ("admin"))]) := by
  exact C7_token_round_trip ⟨JWTAlgo.hs256, ("s7"), none, none, 86400⟩ ⟨[]⟩ 0 10 ("alice")
    [(("role"), ("admin"))]
    (TokenString.wellFormed
      ⟨JWTAlgo.hs256, ("s7"), ⟨("alice"), 0, some 86400, [(("role"), ("admin"))]⟩⟩)
    (Or.inl rfl) (by decide) rfl rfl (by decide)

/-- A JSONB value as far as the embedded code inspects it: a string, an
object with string values (the shape of the thumbnails map), or any
other JSON value left uninterpreted. -/
inductive JVal
| str (s : String)
| obj (fields : List (String × String))
| otherJson (tag : String)
deriving DecidableEq, Repr

/-- A JSONB object: an association list of top-level keys. -/
abbrev Jsonb := List (String × JVal)

/-- Top-level key lookup in a JSONB object (meta->key). -/
def jsonbLookup (o : Jsonb) (k : String) : Option JVal :=
  (o.find? (fun p => decide (p.1 = k))).map (fun p => p.2)

/-- Lookup in a string-valued object (thumbnails[size]). -/
def objLookup (o : List (String × String)) (k : String) : Option String :=
  (o.find? (fun p => decide (p.1 = k))).map (fun p => p.2)

/-- db.Photo: one row of the photos table.  status and deleted_at are the
nullable columns InitSchema adds when missing. -/
structure Photo where
  id : String
  s3Key : String
  filename : String
  mime : String
  createdAt : Int
  deletedAt : Option Int
  status : Option String
  meta : Option Jsonb
deriving DecidableEq, Repr

/-- The photos table. -/
structure PhotosDB where
  rows : List Photo
deriving DecidableEq, Repr

/-- The row update performed by the TrashPhoto SQL statement on matching
rows. -/
def trashUpdate (now : Int) (id : String) (p : Photo) : Photo :=
  if p.id = id ∧ p.status = some ("active") then
    { p with status := some ("trashed"), deletedAt := some now }
  else p

/-- DB.TrashPhoto: UPDATE photos SET status trashed, deleted_at now WHERE
id matches AND status is active; zero affected rows is the typed error. -/
def TrashPhoto (db : PhotosDB) (now : Int) (id : String) : Except String PhotosDB :=
  let affected := db.rows.countP (fun p => decide (p.id = id ∧ p.status = some ("active")))
  if affected = 0 then Except.error (("photo not found or already trashed: ") ++ id)
  else Except.ok ⟨db.rows.map (trashUpdate now id)⟩

/-- The row update performed by the RestorePhoto SQL statement. -/
def restoreUpdate (id : String) (p : Photo) : Photo :=
  if p.id = id ∧ p.status = some ("trashed") then
    { p with status := some ("active"), deletedAt := none }
  else p

/-- DB.RestorePhoto: UPDATE photos SET status active, deleted_at NULL
WHERE id matches AND status is trashed; zero affected rows is the typed
error. -/
def RestorePhoto (db : PhotosDB) (id : String) : Except String PhotosDB :=
  let affected := db.rows.countP (fun p => decide (p.id = id ∧ p.status = some ("trashed")))
  if affected = 0 then Except.error (("photo not found in trash: ") ++ id)
  else Except.ok ⟨db.rows.map (restoreUpdate id)⟩

/-- DB.ListPhotos after InitSchema has ensured both optional columns
exist: WHERE status = active OR status IS NULL.  The ORDER BY clause is
dropped; id is the primary key, so the handler lookup below is
order-independent. -/
def ListPhotos (db : PhotosDB) : List Photo :=
  db.rows.filter (fun p => decide (p.status = some ("active") ∨ p.status = none))

/-- DB.ListTrashedPhotos after InitSchema: WHERE status = trashed. -/
def ListTrashedPhotos (db : PhotosDB) : List Photo :=
  db.rows.filter (fun p => decide (p.status = some ("trashed")))

/-- DB.EmptyTrash: DELETE WHERE status = trashed, returning the count. -/
def EmptyTrash (db : PhotosDB) : Int × PhotosDB :=
  let remaining := db.rows.filter (fun p => !decide (p.status = some ("trashed")))
  ((db.rows.length - remaining.length : Int), ⟨remaining⟩)

/-- DB.PermanentlyDeletePhoto: DELETE WHERE id matches AND status is
trashed; zero affected rows is the typed error. -/
def PermanentlyDeletePhoto (db : PhotosDB) (id : String) : Except String PhotosDB :=
  let affected := db.rows.countP (fun p => decide (p.id = id ∧ p.status = some ("trashed")))
  if affected = 0 then Except.error (("photo not found in trash: ") ++ id)
  else Except.ok ⟨db.rows.filter (fun p => !decide (p.id = id ∧ p.status = some ("trashed")))⟩

/-- An HTTP response as far as the handlers determine it: status code,
Content-Type header, Cache-Control header, body. -/
structure HttpResponse where
  status : Nat
  contentType : Option String
  cacheControl : Option String
  body : String
deriving DecidableEq, Repr

/-- The Authorization header as the middleware classifies it after
splitting on spaces: absent, not a two-part Bearer value, Bearer with an
empty token, or Bearer with a token string. -/
inductive AuthHeader
| missing
| malformedFormat (raw : String)
| bearerEmpty
| bearer (token : TokenString)
deriving DecidableEq, Repr

/-- An inbound GET /api/photo/:id request: Authorization header, token
and thumbnail query parameters, the path id, and the X-User-Id header
(set by the middleware on success, absent on a direct request). -/
structure Request where
  authHeader : AuthHeader
  queryToken : Option TokenString
  queryThumbnail : Option String
  pathId : String
  xUserIdHeader : Option String
deriving DecidableEq, Repr

/-- Result of the built-in auth middleware: an early 401, or the request
forwarded with identity installed and X-User-Id set. -/
inductive MiddlewareResult
| reject (resp : HttpResponse)
| forward (userId : String) (customClaims : List (String × String)) (r : Request)
deriving DecidableEq, Repr

/-- Service.Middleware: missing header, non-Bearer shape and empty token
each yield 401; otherwise the token is validated and, on success, the
subject and custom claims travel with the request and X-User-Id is set. -/
def Middleware (cfg : AuthConfig) (st : AuthState) (limiterAllow : Bool) (now : Int)
    (r : Request) : MiddlewareResult :=
  match r.authHeader with
  | AuthHeader.missing =>
      MiddlewareResult.reject ⟨401, none, none, ("Authorization header required")⟩
  | AuthHeader.malformedFormat _ =>
      MiddlewareResult.reject ⟨401, none, none, ("Invalid Authorization header format")⟩
  | AuthHeader.bearerEmpty =>
      MiddlewareResult.reject ⟨401, none, none, ("Token cannot be empty")⟩
  | AuthHeader.bearer token =>
      match ValidateToken cfg st limiterAllow now token with
      | Except.error _ => MiddlewareResult.reject ⟨401, none, none, ("Unauthorized")⟩
      | Except.ok (userId, customClaims) =>
          MiddlewareResult.forward userId customClaims { r with xUserIdHeader := some userId }

/-- The object store: key to blob body. -/
structure BlobStore where
  objects : List (String × String)
deriving DecidableEq, Repr

/-- Storage.GetObject. -/
def getObject (store : BlobStore) (key : String) : Option String :=
  (store.objects.find? (fun p => decide (p.1 = key))).map (fun p => p.2)

/-- The thumbnail branch of photoHandler: when a thumbnail size was
requested, meta is non-nil, meta.thumbnails is an object and carries a
string for that size, serve that key as image/jpeg, else fall back to
the primary key and row MIME. -/
def photoThumbnailSelect (p : Photo) (thumbnailSize : Option String) : String × String :=
  match thumbnailSize, p.meta with
  | some size, some m =>
      match jsonbLookup m ("thumbnails") with
      | some (JVal.obj thumbs) =>
          match objLookup thumbs size with
          | some thumbKey => (thumbKey, ("image/jpeg"))
          | none => (p.s3Key, p.mime)
      | _ => (p.s3Key, p.mime)
  | _, _ => (p.s3Key, p.mime)

/-- The tail of photoHandler after admission: resolve the id against
ListPhotos (active rows only), 404 when absent, then pick primary or
thumbnail key and stream the blob with Cache-Control public,
max-age=86400. -/
def photoServe (db : PhotosDB) (store : BlobStore) (r : Request) : HttpResponse :=
  match (ListPhotos db).find? (fun p => decide (p.id = r.pathId)) with
  | none => ⟨404, none, none, ("Photo not found")⟩
  | some p =>
      let sel := photoThumbnailSelect p r.queryThumbnail
      match getObject store sel.1 with
      | none => ⟨500, none, none, ("Failed to get photo from storage")⟩
      | some content => ⟨200, some sel.2, some ("public, max-age=86400"), content⟩

/-- photoHandler: empty id is 400; a token query parameter is validated
through the same ValidateToken as the header channel (401 on failure);
without it the request must already carry X-User-Id from the middleware;
then the photo is served. -/
def photoHandler (cfg : AuthConfig) (st : AuthState) (limiterAllow : Bool) (now : Int)
    (db : PhotosDB) (store : BlobStore) (r : Request) : HttpResponse :=
  if r.pathId = ("") then ⟨400, none, none, ("Missing ID")⟩
  else
    match r.queryToken with
    | some tokenParam =>
        match ValidateToken cfg st limiterAllow now tokenParam with
        | Except.error _ => ⟨401, none, none, ("Unauthorized")⟩
        | Except.ok _ => photoServe db store r
    | none =>
        if r.xUserIdHeader = none then ⟨401, none, none, ("Unauthorized")⟩
        else photoServe db store r

/-- The mounted route GET /api/photo/:id: the protected subrouter runs
Service.Middleware first, then photoHandler. -/
def photoRoute (cfg : AuthConfig) (st : AuthState) (limiterAllow : Bool) (now : Int)
    (db : PhotosDB) (store : BlobStore) (r : Request) : HttpResponse :=
  match Middleware cfg st limiterAllow now r with
  | MiddlewareResult.reject resp => resp
  | MiddlewareResult.forward _ _ r2 => photoHandler cfg st limiterAllow now db store r2

/-- trashPhotoHandler: empty id is 400; a TrashPhoto error is returned
as 500 Internal Server Error; success is 200 with a JSON body. -/
def trashPhotoHandler (db : PhotosDB) (now : Int) (id : String) : HttpResponse × PhotosDB :=
  if id = ("") then (⟨400, none, none, ("Missing ID")⟩, db)
  else
    match TrashPhoto db now id with
    | Except.error e => (⟨500, none, none, (("Failed to trash photo: ") ++ e)⟩, db)
    | Except.ok db2 =>
        (⟨200, some ("application/json"), none, ("Photo moved to trash")⟩, db2)

/-- restorePhotoHandler: mirror of trashPhotoHandler over RestorePhoto. -/
def restorePhotoHandler (db : PhotosDB) (id : String) : HttpResponse × PhotosDB :=
  if id = ("") then (⟨400, none, none, ("Missing ID")⟩, db)
  else
    match RestorePhoto db id with
    | Except.error e => (⟨500, none, none, (("Failed to restore photo: ") ++ e)⟩, db)
    | Except.ok db2 =>
        (⟨200, some ("application/json"), none, ("Photo restored from trash")⟩, db2)

lemma TrashPhoto_ok (db : PhotosDB) (now : Int) (id : String)
    (h : ∃ p ∈ db.rows, p.id = id ∧ p.status = some ("active")) :
    TrashPhoto db now id = Except.ok ⟨db.rows.map (trashUpdate now id)⟩ := by
  unfold TrashPhoto
  rcases h with ⟨p, hp, hcond⟩
  have hpos : 0 < db.rows.countP (fun p => decide (p.id = id ∧ p.status = some ("active"))) :=
    List.countP_pos_iff.mpr ⟨p, hp, decide_eq_true hcond⟩
  simp only []
  rw [if_neg (by omega)]

lemma TrashPhoto_err (db : PhotosDB) (now : Int) (id : String)
    (h : ∀ p ∈ db.rows, ¬(p.id = id ∧ p.status = some ("active"))) :
    TrashPhoto db now id = Except.error (("photo not found or already trashed: ") ++ id) := by
  unfold TrashPhoto
  have hzero : db.rows.countP (fun p => decide (p.id = id ∧ p.status = some ("active"))) = 0 :=
    List.countP_eq_zero.mpr (fun p hp => by simpa using h p hp)
  simp only []
  rw [if_pos hzero]

lemma RestorePhoto_ok (db : PhotosDB) (id : String)
    (h : ∃ p ∈ db.rows, p.id = id ∧ p.status = some ("trashed")) :
    RestorePhoto db id = Except.ok ⟨db.rows.map (restoreUpdate id)⟩ := by
  unfold RestorePhoto
  rcases h with ⟨p, hp, hcond⟩
  have hpos : 0 < db.rows.countP (fun p => decide (p.id = id ∧ p.status = some ("trashed"))) :=
    List.countP_pos_iff.mpr ⟨p, hp, decide_eq_true hcond⟩
  simp only []
  rw [if_neg (by omega)]

lemma RestorePhoto_err (db : PhotosDB) (id : String)
    (h : ∀ p ∈ db.rows, ¬(p.id = id ∧ p.status = some ("trashed"))) :
    RestorePhoto db id = Except.error (("photo not found in trash: ") ++ id) := by
  unfold RestorePhoto
  have hzero : db.rows.countP (fun p => decide (p.id = id ∧ p.status = some ("trashed"))) = 0 :=
    List.countP_eq_zero.mpr (fun p hp => by simpa using h p hp)
  simp only []
  rw [if_pos hzero]

/-- Claim C3, counterexample: trashing a photo that is already trashed
fails, but the HTTP status is 500 Internal Server Error, not 409
Conflict. -/
theorem C3_trash_conflict_counterexample :
    (trashPhotoHandler
        ⟨[⟨("p1"), ("photos/p1"), ("a.png"), ("image/png"), 0, some 5, some ("trashed"), none⟩]⟩
        9 ("p1")).1.status = 500 ∧
    ¬(trashPhotoHandler
        ⟨[⟨("p1"), ("photos/p1"), ("a.png"), ("image/png"), 0, some 5, some ("trashed"), none⟩]⟩
        9 ("p1")).1.status = 409 := by
  exact ⟨rfl, by decide⟩

/-- Claim C3, amended: trashing an active photo succeeds with 200 and the
row moves to trashed with deleted_at set; trashing an id with no active
row (in particular an already-trashed photo) fails and the handler
returns 500 Internal Server Error (not 409), leaving the table unchanged;
restore succeeds exactly from trashed, mirroring trash. -/
theorem C3_trash_boundary (db : PhotosDB) (now : Int) (id : String) (hid : ¬id = ("")) :
    ((∃ p ∈ db.rows, p.id = id) →
      (∀ p ∈ db.rows, p.id = id → p.status = some ("active")) →
      (trashPhotoHandler db now id).1.status = 200 ∧
      ∀ p ∈ (trashPhotoHandler db now id).2.rows, p.id = id →
        p.status = some ("trashed") ∧ p.deletedAt = some now) ∧
    ((∀ p ∈ db.rows, p.id = id → ¬p.status = some ("active")) →
      (trashPhotoHandler db now id).1.status = 500 ∧ (trashPhotoHandler db now id).2 = db) ∧
    ((∃ p ∈ db.rows, p.id = id ∧ p.status = some ("trashed")) →
      RestorePhoto db id = Except.ok ⟨db.rows.map (restoreUpdate id)⟩) ∧
    ((∀ p ∈ db.rows, p.id = id → ¬p.status = some ("trashed")) →
      RestorePhoto db id = Except.error (("photo not found in trash: ") ++ id)) := by
  refine ⟨?_, ?_, ?_, ?_⟩
  · intro hex hall
    rcases hex with ⟨p, hp, hpid⟩
    have hok := TrashPhoto_ok db now id ⟨p, hp, hpid, hall p hp hpid⟩
    constructor
    · simp [trashPhotoHandler, hid, hok]
    · intro q hq hqid
      have hq2 : q ∈ db.rows.map (trashUpdate now id) := by
        simpa [trashPhotoHandler, hid, hok] using hq
      rcases List.mem_map.mp hq2 with ⟨q0, hq0, hq0eq⟩
      by_cases hcond : q0.id = id ∧ q0.status = some ("active")
      · rw [← hq0eq]
        simp [trashUpdate, hcond]
      · exfalso
        unfold trashUpdate at hq0eq
        rw [if_neg hcond] at hq0eq
        rw [← hq0eq] at hqid
        exact hcond ⟨hqid, hall q0 hq0 hqid⟩
  · intro hall
    have herr := TrashPhoto_err db now id (fun p hp hc => hall p hp hc.1 hc.2)
    constructor
    · simp [trashPhotoHandler, hid, herr]
    · simp [trashPhotoHandler, hid, herr]
  · intro hex
    exact RestorePhoto_ok db id hex
  · intro hall
    exact RestorePhoto_err db id (fun p hp hc => hall p hp hc.1 hc.2)

/-- Claim C3 witness: the amended boundary at a one-row active table and
a one-row trashed table. -/
theorem C3_trash_boundary_witness :
    (trashPhotoHandler
        ⟨[⟨("w1"), ("photos/w1"), ("b.png"), ("image/png"), 0, none, some ("active"), none⟩]⟩
        7 ("w1")).1.status = 200 ∧
    RestorePhoto
        ⟨[⟨("w1"), ("photos/w1"), ("b.png"), ("image/png"), 0, some 5, some ("trashed"), none⟩]⟩
        ("w1") =
      Except.ok
        ⟨[⟨("w1"), ("photos/w1"), ("b.png"), ("image/png"), 0, none, some ("active"), none⟩]⟩ := by
  constructor
  · exact (C3_trash_boundary
      ⟨[⟨("w1"), ("photos/w1"), ("b.png"), ("image/png"), 0, none, some ("active"), none⟩]⟩
      7 ("w1") (by decide)).1 (by simp) (by simp) |>.1
  · exact (C3_trash_boundary
      ⟨[⟨("w1"), ("photos/w1"), ("b.png"), ("image/png"), 0, some 5, some ("trashed"), none⟩]⟩
      7 ("w1") (by decide)).2.2.1 (by simp)

/-- Concrete service, state, token, table and store for the query-token
route evaluation. -/
def c1Cfg : AuthConfig := ⟨JWTAlgo.hs256, ("sec1"), none, none, 86400⟩

def c1Tok : TokenString :=
  TokenString.wellFormed ⟨JWTAlgo.hs256, ("sec1"), ⟨("user-1"), 0, some 100, []⟩⟩

def c1Db : PhotosDB :=
  ⟨[⟨("p1"), ("photos/p1"), ("cat.png"), ("image/png"), 0, none, some ("active"), none⟩]⟩

def c1Store : BlobStore := ⟨[(("photos/p1"), ("PNGBYTES"))]⟩

def c1Req : Request := ⟨AuthHeader.missing, some c1Tok, none, ("p1"), none⟩

/-- Claim C1: a GET /api/photo/p1 request carrying a valid query-parameter
token and no Authorization header is rejected with 401 by the mounted
route, because Service.Middleware runs before photoHandler and requires
the header unconditionally.  The token is valid (first conjunct) and the
handler alone would have served the blob through the very same validator
(third conjunct): the query-parameter admission branch is unreachable for
header-less requests. -/
theorem C1_query_token_blocked_by_middleware :
    ValidateToken c1Cfg ⟨[]⟩ true 10 c1Tok = Except.ok (("user-1"), []) ∧
    photoRoute c1Cfg ⟨[]⟩ true 10 c1Db c1Store c1Req =
      ⟨401, none, none, ("Authorization header required")⟩ ∧
    photoHandler c1Cfg ⟨[]⟩ true 10 c1Db c1Store c1Req =
      ⟨200, some ("image/png"), some ("public, max-age=86400"), ("PNGBYTES")⟩ := by
  exact ⟨rfl, rfl, rfl⟩

/-- Claim C10: the photo route resolves ids against ListPhotos, which
returns only rows whose status is active or NULL; when every row bearing
the requested id is trashed, an authenticated request gets 404, even
though the row (and its blob) still exist. -/
theorem C10_trashed_photo_404 (cfg : AuthConfig) (st : AuthState) (limiterAllow : Bool)
    (now : Int) (db : PhotosDB) (store : BlobStore) (r : Request) (uid : String)
    (hid : ¬r.pathId = (""))
    (hq : r.queryToken = none)
    (hx : r.xUserIdHeader = some uid)
    (_hrow : ∃ p ∈ db.rows, p.id = r.pathId ∧ p.status = some ("trashed"))
    (hall : ∀ p ∈ db.rows, p.id = r.pathId → p.status = some ("trashed")) :
    photoHandler cfg st limiterAllow now db store r = ⟨404, none, none, ("Photo not found")⟩ := by
  have hfind : (ListPhotos db).find? (fun p => decide (p.id = r.pathId)) = none := by
    apply List.find?_eq_none.mpr
    intro p hp
    have hmem := List.mem_filter.mp hp
    have hstat := of_decide_eq_true hmem.2
    simp only [decide_eq_true_eq]
    intro hpid
    have htr := hall p hmem.1 hpid
    rw [htr] at hstat
    rcases hstat with h1 | h1
    · exact absurd (Option.some.inj h1) (by decide)
    · cases h1
  simp [photoHandler, hid, hq, hx, photoServe, hfind]

/-- Claim C10 witness: a table holding one trashed row (blob still in the
store) yields 404 for an authenticated request for that id. -/
theorem C10_trashed_photo_404_witness :
    photoHandler c1Cfg ⟨[]⟩ true 10
      ⟨[⟨("t1"), ("photos/t1"), ("d.png"), ("image/png"), 0, some 3, some ("trashed"), none⟩]⟩
      ⟨[(("photos/t1"), ("BYTES"))]⟩
      ⟨AuthHeader.missing, none, none, ("t1"), some ("admin-7")⟩ =
      ⟨404, none, none, ("Photo not found")⟩ := by
  exact C10_trashed_photo_404 c1Cfg ⟨[]⟩ true 10
    ⟨[⟨("t1"), ("photos/t1"), ("d.png"), ("image/png"), 0, some 3, some ("trashed"), none⟩]⟩
    ⟨[(("photos/t1"), ("BYTES"))]⟩
    ⟨AuthHeader.missing, none, none, ("t1"), some ("admin-7")⟩
    ("admin-7") (by decide) rfl rfl (by simp) (by simp)

/-- user.Role constant RoleAdmin. -/
def RoleAdmin : String := ("admin")

/-- user.User, restricted to the fields deleteUserHandler reads (id,
role) plus username and the active flag the claim is about; the remaining
columns (email, full name, password hash, timestamps) are never consulted
by the delete path. -/
structure User where
  id : String
  username : String
  role : String
  active : Bool
deriving DecidableEq, Repr

/-- Manager.DeleteUser: DELETE FROM users WHERE id matches; zero affected
rows is ErrUserNotFound. -/
def DeleteUser (users : List User) (id : String) : Except String (List User) :=
  if users.any (fun u => decide (u.id = id)) then
    Except.ok (users.filter (fun u => !decide (u.id = id)))
  else Except.error ("user not found")

/-- The number of users with role admin and active true - the quantity
the spec invariant protects. -/
def countActiveAdmins (users : List User) : Nat :=
  users.countP (fun u => decide (u.role = RoleAdmin ∧ u.active = true))

/-- deleteUserHandler: empty id is 400; the guard counts users whose role
is admin (the active flag is not consulted) and flags the target when an
admin row carries the requested id; the last-admin rejection is 400;
otherwise DeleteUser runs, with 404 for a missing row and 204 on
success. -/
def deleteUserHandler (users : List User) (id : String) : HttpResponse × List User :=
  if id = ("") then (⟨400, none, none, ("Missing ID")⟩, users)
  else
    let adminCount := users.countP (fun u => decide (u.role = RoleAdmin))
    let isAdmin := users.any (fun u => decide (u.role = RoleAdmin ∧ u.id = id))
    if isAdmin ∧ adminCount ≤ 1 then
      (⟨400, none, none, ("Cannot delete the last admin user")⟩, users)
    else
      match DeleteUser users id with
      | Except.error _ => (⟨404, none, none, ("User not found")⟩, users)
      | Except.ok users2 => (⟨204, none, none, ("")⟩, users2)

/-- Claim C4, counterexample: with one active admin alice and one
inactive admin bob, deleting alice passes the guard (two admin-role
users) and succeeds with 204, leaving zero active admins - the request
neither fails with 400 nor preserves the at-least-one-active-admin
invariant. -/
theorem C4_admin_invariant_counterexample :
    (deleteUserHandler
        [⟨("a"), ("alice"), ("admin"), true⟩, ⟨("b"), ("bob"), ("admin"), false⟩]
        ("a")).1.status = 204 ∧
    countActiveAdmins
        [⟨("a"), ("alice"), ("admin"), true⟩, ⟨("b"), ("bob"), ("admin"), false⟩] = 1 ∧
    countActiveAdmins
      (deleteUserHandler
        [⟨("a"), ("alice"), ("admin"), true⟩, ⟨("b"), ("bob"), ("admin"), false⟩]
        ("a")).2 = 0 := by
  exact ⟨rfl, rfl, rfl⟩

/-- Claim C4, amended: the delete guard counts admin-role users without
regard to the active flag: the request fails with 400 exactly when the
target is an admin-role user and the total number of admin-role users is
at most one; when a second admin-role row exists (active or not) the
deletion proceeds with 204, which can leave zero active admins. -/
theorem C4_admin_guard (users : List User) (id : String) (hid : ¬id = ("")) :
    ((users.any (fun u => decide (u.role = RoleAdmin ∧ u.id = id)) = true) →
      (users.countP (fun u => decide (u.role = RoleAdmin)) ≤ 1) →
      deleteUserHandler users id =
        (⟨400, none, none, ("Cannot delete the last admin user")⟩, users)) ∧
    ((users.any (fun u => decide (u.role = RoleAdmin ∧ u.id = id)) = true) →
      (2 ≤ users.countP (fun u => decide (u.role = RoleAdmin))) →
      deleteUserHandler users id =
        (⟨204, none, none, ("")⟩, users.filter (fun u => !decide (u.id = id)))) := by
  constructor
  · intro hisAdmin hcount
    simp only [deleteUserHandler]
    rw [if_neg hid, if_pos ⟨hisAdmin, hcount⟩]
  · intro hisAdmin hcount
    have hguard : ¬(users.any (fun u => decide (u.role = RoleAdmin ∧ u.id = id)) = true ∧
        users.countP (fun u => decide (u.role = RoleAdmin)) ≤ 1) := by
      intro hc
      omega
    have hmem : users.any (fun u => decide (u.id = id)) = true := by
      rcases List.any_eq_true.mp hisAdmin with ⟨u, hu, hcond⟩
      exact List.any_eq_true.mpr ⟨u, hu, decide_eq_true (of_decide_eq_true hcond).2⟩
    simp only [deleteUserHandler, DeleteUser]
    rw [if_neg hid, if_neg hguard, if_pos hmem]

/-- Claim C4 witness: the guard fires for the single admin; deletion
proceeds when a second admin-role row exists. -/
theorem C4_admin_guard_witness :
    deleteUserHandler [⟨("a"), ("alice"), ("admin"), true⟩] ("a") =
      (⟨400, none, none, ("Cannot delete the last admin user")⟩,
        [⟨("a"), ("alice"), ("admin"), true⟩]) ∧
    deleteUserHandler
        [⟨("a"), ("alice"), ("admin"), true⟩, ⟨("b"), ("bob"), ("admin"), false⟩] ("a") =
      (⟨204, none, none, ("")⟩, [⟨("b"), ("bob"), ("admin"), false⟩]) := by
  constructor
  · exact (C4_admin_guard [⟨("a"), ("alice"), ("admin"), true⟩] ("a")
      (by decide)).1 (by decide) (by decide)
  · exact (C4_admin_guard
      [⟨("a"), ("alice"), ("admin"), true⟩, ⟨("b"), ("bob"), ("admin"), false⟩] ("a")
      (by decide)).2 (by decide) (by decide)

/-- A stdout line from a plugin child process, stamped with its arrival
time in milliseconds after cmd.Start. -/
structure StdoutLine where
  timeMs : Nat
  text : String
deriving DecidableEq, Repr

/-- gRPC health statuses a plugin can report. -/
inductive HealthStatus
| serving
| notServing
| unknown
deriving DecidableEq, Repr

/-- The observable behaviour of one plugin launch: the binary path and
child pid, the stdout lines, whether grpc.Dial succeeds, whether the
Health.Check RPC completes without transport error, its completion time
in milliseconds and the status it reports. -/
structure PluginRun where
  path : String
  pid : Nat
  stdout : List StdoutLine
  dialOk : Bool
  healthRpcOk : Bool
  healthRespTimeMs : Nat
  healthStatus : HealthStatus
deriving DecidableEq, Repr

/-- The loader package state: the Registry, the pluginProcesses recorded
for shutdown cleanup, and the pids that have actually been killed. -/
structure LoaderState where
  registry : List String
  pluginProcesses : List Nat
  killedPids : List Nat
deriving DecidableEq, Repr

/-- The regex PORT=(\d+) applied at the head of a character list:
the literal PORT= followed by at least one digit, capturing the maximal
digit run. -/
def portMatchAt (cs : List Char) : Option (List Char) :=
  match cs with
  | 'P' :: 'O' :: 'R' :: 'T' :: '=' :: rest =>
      let ds := rest.takeWhile (fun c => c.isDigit)
      if ds.isEmpty then none else some ds
  | _ => none

/-- Leftmost match of PORT=(\d+) in a character list. -/
def findPortDigits : List Char → Option (List Char)
| [] => none
| c :: rest =>
    match portMatchAt (c :: rest) with
    | some ds => some ds
    | none => findPortDigits rest

/-- strconv.Atoi on the captured digit run.  Atoi fails only when the
digits exceed the 64-bit range; the unbounded Nat of this model cannot
exhibit that, so the invalid-port error branch of the scanner goroutine
is unreachable here. -/
def digitsToNat : List Char → Nat → Nat
| [], acc => acc
| c :: rest, acc => digitsToNat rest (acc * 10 + (c.toNat - 48))

/-- portRegex.FindStringSubmatch plus Atoi on one stdout line. -/
def findPortInLine (s : String) : Option Nat :=
  match findPortDigits s.data with
  | none => none
  | some ds => some (digitsToNat ds 0)

/-- The stdout-scanning goroutine: it reads lines in order and yields the
arrival time and port of the first line the regex matches. -/
def firstPortScan : List StdoutLine → Option (Nat × Nat)
| [] => none
| l :: rest =>
    match findPortInLine l.text with
    | some port => some (l.timeMs, port)
    | none => firstPortScan rest

/-- loadPlugin: the child is started and recorded in pluginProcesses
before the handshake; the select waits for the port value against a
5-second timer; then the loader dials and calls Health.Check with a
5-second deadline.  The response status is never inspected - only an RPC
error (or deadline) fails the load - and no branch kills the child. -/
def loadPlugin (st : LoaderState) (run : PluginRun) : LoaderState × Except String Unit :=
  let st1 : LoaderState :=
    ⟨st.registry, st.pluginProcesses ++ [run.pid], st.killedPids⟩
  match firstPortScan run.stdout with
  | none => (st1, Except.error ("plugin failed to start within timeout period"))
  | some (t, _port) =>
      if t < 5000 then
        if run.dialOk = false then (st1, Except.error ("failed to connect to plugin"))
        else if run.healthRpcOk = false ∨ 5000 ≤ run.healthRespTimeMs then
          (st1, Except.error ("health check failed"))
        else (⟨st1.registry ++ [run.path], st1.pluginProcesses, st1.killedPids⟩, Except.ok ())
      else (st1, Except.error ("plugin failed to start within timeout period"))

/-- The shutdown cleanup function: it kills every recorded child; this is
the only place a child is ever killed. -/
def loaderCleanup (st : LoaderState) : LoaderState :=
  ⟨st.registry, st.pluginProcesses, st.killedPids ++ st.pluginProcesses⟩

/-- Claim C5, counterexample: a plugin that prints PORT=5005 at 100 ms,
dials fine and answers Health.Check promptly but with NOT_SERVING is
nevertheless registered (the loader never looks at the status); and a
plugin whose PORT line only arrives at 6000 ms fails the load with the
timeout error yet is not killed - it merely stays recorded for shutdown
cleanup. -/
theorem C5_handshake_counterexample :
    (loadPlugin ⟨[], [], []⟩
      ⟨("/plugins/p"), 41, [⟨100, ("PORT=5005")⟩], true, true, 50,
        HealthStatus.notServing⟩).1.registry = [("/plugins/p")] ∧
    (loadPlugin ⟨[], [], []⟩
      ⟨("/plugins/p"), 41, [⟨100, ("PORT=5005")⟩], true, true, 50,
        HealthStatus.notServing⟩).2 = Except.ok () ∧
    (loadPlugin ⟨[], [], []⟩
      ⟨("/plugins/late"), 43, [⟨6000, ("PORT=7007")⟩], true, true, 50,
        HealthStatus.serving⟩).2 =
      Except.error ("plugin failed to start within timeout period") ∧
    (loadPlugin ⟨[], [], []⟩
      ⟨("/plugins/late"), 43, [⟨6000, ("PORT=7007")⟩], true, true, 50,
        HealthStatus.serving⟩).1.registry = [] ∧
    (loadPlugin ⟨[], [], []⟩
      ⟨("/plugins/late"), 43, [⟨6000, ("PORT=7007")⟩], true, true, 50,
        HealthStatus.serving⟩).1.killedPids = [] ∧
    (loadPlugin ⟨[], [], []⟩
      ⟨("/plugins/late"), 43, [⟨6000, ("PORT=7007")⟩], true, true, 50,
        HealthStatus.serving⟩).1.pluginProcesses = [43] := by
  exact ⟨rfl, rfl, rfl, rfl, rfl, rfl⟩

/-- Claim C5, amended: a plugin is registered iff a PORT=(digits) line
arrives strictly before the 5 s deadline, the dial succeeds, and the
Health.Check RPC completes without error within its 5 s deadline - the
reported health status is irrelevant; on failure the registry is
unchanged, and in no case does loadPlugin kill the child: it is only
recorded for shutdown cleanup. -/
theorem C5_handshake_behaviour (st : LoaderState) (run : PluginRun) :
    ((loadPlugin st run).2 = Except.ok () ↔
      ((∃ t port, firstPortScan run.stdout = some (t, port) ∧ t < 5000) ∧
        run.dialOk = true ∧ run.healthRpcOk = true ∧ run.healthRespTimeMs < 5000)) ∧
    ((loadPlugin st run).2 = Except.ok () →
      (loadPlugin st run).1.registry = st.registry ++ [run.path]) ∧
    (¬(loadPlugin st run).2 = Except.ok () →
      (loadPlugin st run).1.registry = st.registry) ∧
    (loadPlugin st run).1.killedPids = st.killedPids ∧
    (loadPlugin st run).1.pluginProcesses = st.pluginProcesses ++ [run.pid] := by
  simp only [loadPlugin]
  split
  · rename_i heq
    refine ⟨?_, ?_, ?_, rfl, rfl⟩
    · constructor
      · intro h
        exact absurd h (by simp)
      · rintro ⟨⟨t2, port2, hsc, ht2⟩, _⟩
        rw [heq] at hsc
        cases hsc
    · intro h
      exact absurd h (by simp)
    · intro _
      rfl
  · rename_i t port heq
    split
    · rename_i ht
      split
      · rename_i hdial
        refine ⟨?_, ?_, ?_, rfl, rfl⟩
        · constructor
          · intro h
            exact absurd h (by simp)
          · rintro ⟨_, hdT, _, _⟩
            rw [hdT] at hdial
            cases hdial
        · intro h
          exact absurd h (by simp)
        · intro _
          rfl
      · rename_i hdial
        split
        · rename_i hhc
          refine ⟨?_, ?_, ?_, rfl, rfl⟩
          · constructor
            · intro h
              exact absurd h (by simp)
            · rintro ⟨_, _, hrpcT, hrespT⟩
              rcases hhc with h | h
              · rw [hrpcT] at h
                cases h
              · omega
          · intro h
            exact absurd h (by simp)
          · intro _
            rfl
        · rename_i hhc
          push_neg at hhc
          have hdT : run.dialOk = true := by
            cases hb : run.dialOk
            · exact absurd hb hdial
            · rfl
          have hrpcT : run.healthRpcOk = true := by
            cases hb : run.healthRpcOk
            · exact absurd hb hhc.1
            · rfl
          refine ⟨?_, ?_, ?_, rfl, rfl⟩
          · constructor
            · intro _
              exact ⟨⟨t, port, heq, ht⟩, hdT, hrpcT, by omega⟩
            · intro _
              rfl
          · intro _
            rfl
          · intro h
            exact absurd rfl h
    · rename_i ht
      refine ⟨?_, ?_, ?_, rfl, rfl⟩
      · constructor
        · intro h
          exact absurd h (by simp)
        · rintro ⟨⟨t2, port2, hsc, ht2⟩, _⟩
          rw [heq] at hsc
          have h1 : t = t2 := by
            have := Option.some.inj hsc
            exact congrArg Prod.fst this
          omega
      · intro h
        exact absurd h (by simp)
      · intro _
        rfl

/-- Claim C5 witness: the amended behaviour at the prompt NOT_SERVING
plugin run - the handshake condition holds, so it is registered; no kill
is recorded. -/
theorem C5_handshake_behaviour_witness :
    (loadPlugin ⟨[], [], []⟩
      ⟨("/plugins/p"), 41, [⟨100, ("PORT=5005")⟩], true, true, 50,
        HealthStatus.notServing⟩).1.registry = [] ++ [("/plugins/p")] ∧
    (loadPlugin ⟨[], [], []⟩
      ⟨("/plugins/p"), 41, [⟨100, ("PORT=5005")⟩], true, true, 50,
        HealthStatus.notServing⟩).1.killedPids = [] := by
  have h := C5_handshake_behaviour ⟨[], [], []⟩
    ⟨("/plugins/p"), 41, [⟨100, ("PORT=5005")⟩], true, true, 50, HealthStatus.notServing⟩
  exact ⟨h.2.1 (h.1.mpr ⟨⟨100, 5005, rfl, by decide⟩, rfl, rfl, by decide⟩), h.2.2.2.1⟩

/-- Outcome of one plugin ValidateToken call under its 200 ms deadline:
a transport/deadline error, or a response carrying ok, user_id and an
error message. -/
inductive PluginCallResult
| rpcError (msg : String)
| resp (ok : Bool) (userId : String) (errMsg : String)
deriving DecidableEq, Repr

/-- A registered plugin together with the result its ValidateToken
returns for the token under consideration. -/
structure PluginSim where
  id : String
  result : PluginCallResult
deriving DecidableEq, Repr

/-- One iteration of the closure the plugin-auth middleware hands to
loader.ForEach, threading (authenticated, userId) and recording that
this plugin was called.  The closure returns nil in every branch - after
an rpc error, after ok=false, and also after ok=true - so ForEach, which
stops only on a non-nil error, always proceeds to the next plugin. -/
def fanOutStep (acc : Bool × String × List String) (p : PluginSim) :
    Bool × String × List String :=
  let called := acc.2.2 ++ [p.id]
  match p.result with
  | PluginCallResult.rpcError _ => (acc.1, acc.2.1, called)
  | PluginCallResult.resp ok uid _ =>
      if ok then (true, uid, called) else (acc.1, acc.2.1, called)

/-- The full loader.ForEach pass over the registry made by the
middleware closure. -/
def fanOutValidate (registry : List PluginSim) : Bool × String × List String :=
  registry.foldl fanOutStep (false, (""), [])

/-- Decision of the plugin-auth middleware. -/
inductive PluginAuthDecision
| passNoPlugins
| reject (resp : HttpResponse)
| admitted (userId : String)
deriving DecidableEq, Repr

/-- middleware.Auth: an empty registry passes the request through
unauthenticated; header checks mirror the built-in middleware; then the
registry is fanned out and the request is admitted with the recorded
userId when some plugin answered ok, else 401.  (ForEach can only return
an error the closure produced; the closure never does, so the 500 branch
of the source is unreachable.)  The second component lists the plugins
actually called. -/
def pluginAuth (registry : List PluginSim) (r : Request) :
    PluginAuthDecision × List String :=
  if registry.isEmpty then (PluginAuthDecision.passNoPlugins, [])
  else
    match r.authHeader with
    | AuthHeader.missing =>
        (PluginAuthDecision.reject ⟨401, none, none, ("Authorization header required")⟩, [])
    | AuthHeader.malformedFormat _ =>
        (PluginAuthDecision.reject ⟨401, none, none, ("Invalid Authorization header format")⟩, [])
    | AuthHeader.bearerEmpty =>
        (PluginAuthDecision.reject ⟨401, none, none, ("Token cannot be empty")⟩, [])
    | AuthHeader.bearer _ =>
        let res := fanOutValidate registry
        if res.1 = false then
          (PluginAuthDecision.reject ⟨401, none, none, ("Unauthorized")⟩, res.2.2)
        else (PluginAuthDecision.admitted res.2.1, res.2.2)

/-- Claim C6: evaluating the middleware at a registry of two plugins that
both validate the token shows the divergence: plugin p2 is still called
after p1 already returned ok, and the request is admitted with the LAST
successful plugin's user id (u2), because the closure returns nil after
a success and ForEach therefore never stops early.  The parts of the
claim the code does satisfy are also evaluated: an empty registry passes
the request through, and a registry whose calls all fail (rpc error or
ok=false, skipped individually) yields 401. -/
theorem C6_fanout_no_short_circuit :
    pluginAuth
      [⟨("p1"), PluginCallResult.resp true ("u1") ("")⟩,
       ⟨("p2"), PluginCallResult.resp true ("u2") ("")⟩]
      ⟨AuthHeader.bearer (TokenString.malformed ("tok")), none, none, ("x"), none⟩ =
      (PluginAuthDecision.admitted ("u2"), [("p1"), ("p2")]) ∧
    pluginAuth []
      ⟨AuthHeader.missing, none, none, ("x"), none⟩ =
      (PluginAuthDecision.passNoPlugins, []) ∧
    pluginAuth
      [⟨("p1"), PluginCallResult.rpcError ("context deadline exceeded")⟩,
       ⟨("p2"), PluginCallResult.resp false ("") ("bad token")⟩]
      ⟨AuthHeader.bearer (TokenString.malformed ("tok")), none, none, ("x"), none⟩ =
      (PluginAuthDecision.reject ⟨401, none, none, ("Unauthorized")⟩, [("p1"), ("p2")]) := by
  exact ⟨rfl, rfl, rfl⟩

/-- Final disposition of a delivered message. -/
inductive MsgAction
| ack
| nak
deriving DecidableEq, Repr

/-- What the retry loop of handlePhotoUploaded did: how many times
processMessage ran, the sleeps taken between attempts (seconds), and
whether the message was acked or NAK'd. -/
structure RetryTrace where
  attemptsMade : Nat
  sleepsSec : List Nat
  action : MsgAction
deriving DecidableEq, Repr

/-- The retry loop body: retries counts completed failed attempts,
backoff is the current sleep, and the fuel argument is
maxRetries - retries (the loop runs while retries <= maxRetries).
succeeds n tells whether the (n+1)-th processMessage call returns nil.
On success the message is acked immediately; at retries = maxRetries the
failure is final and the message is NAK'd; otherwise the worker sleeps
backoff, doubles it and retries. -/
def retryLoopGo (succeeds : Nat → Bool) (retries backoff : Nat) (sleeps : List Nat) :
    Nat → RetryTrace
| 0 =>
    if succeeds retries then ⟨retries + 1, sleeps, MsgAction.ack⟩
    else ⟨retries + 1, sleeps, MsgAction.nak⟩
| remaining + 1 =>
    if succeeds retries then ⟨retries + 1, sleeps, MsgAction.ack⟩
    else retryLoopGo succeeds (retries + 1) (backoff * 2) (sleeps ++ [backoff]) remaining

/-- Thumbnailer.handlePhotoUploaded, retry logic: starts at zero retries
with a 1-second backoff and the configured MaxRetries bound. -/
def handlePhotoUploaded (succeeds : Nat → Bool) (maxRetries backoff0 : Nat) : RetryTrace :=
  retryLoopGo succeeds 0 backoff0 [] maxRetries

/-- Claim C8: with the configured MaxRetries = 3 and initial backoff 1 s,
the worker makes at most 4 processMessage attempts (1 + 3 additional);
if every attempt fails it sleeps 1 s, 2 s, 4 s between attempts and NAKs
on the final failure; the first successful attempt acks the message and
stops the loop, having slept only the backoffs before it. -/
theorem C8_retry_policy (succeeds : Nat → Bool) :
    (handlePhotoUploaded succeeds 3 1).attemptsMade ≤ 4 ∧
    ((∀ k, k ≤ 3 → succeeds k = false) →
      handlePhotoUploaded succeeds 3 1 = ⟨4, [1, 2, 4], MsgAction.nak⟩) ∧
    (∀ k, k ≤ 3 → succeeds k = true → (∀ j, j < k → succeeds j = false) →
      handlePhotoUploaded succeeds 3 1 = ⟨k + 1, List.take k [1, 2, 4], MsgAction.ack⟩) := by
  have heval : handlePhotoUploaded succeeds 3 1 =
      if succeeds 0 then ⟨1, [], MsgAction.ack⟩
      else if succeeds 1 then ⟨2, [1], MsgAction.ack⟩
      else if succeeds 2 then ⟨3, [1, 2], MsgAction.ack⟩
      else if succeeds 3 then ⟨4, [1, 2, 4], MsgAction.ack⟩
      else ⟨4, [1, 2, 4], MsgAction.nak⟩ := rfl
  refine ⟨?_, ?_, ?_⟩
  · rw [heval]
    by_cases h0 : succeeds 0 = true <;> by_cases h1 : succeeds 1 = true <;>
      by_cases h2 : succeeds 2 = true <;> by_cases h3 : succeeds 3 = true <;>
      simp [h0, h1, h2, h3]
  · intro hall
    rw [heval]
    simp [hall 0 (by omega), hall 1 (by omega), hall 2 (by omega), hall 3 (by omega)]
  · intro k hk hks hprev
    interval_cases k
    · rw [heval]
      simp [hks]
    · rw [heval]
      simp [hprev 0 (by omega), hks]
    · rw [heval]
      simp [hprev 0 (by omega), hprev 1 (by omega), hks]
    · rw [heval]
      simp [hprev 0 (by omega), hprev 1 (by omega), hprev 2 (by omega), hks]

/-- Claim C8 witness: the always-failing message is attempted 4 times
with sleeps 1 s, 2 s, 4 s and then NAK'd. -/
theorem C8_retry_policy_witness :
    handlePhotoUploaded (fun _ => false) 3 1 = ⟨4, [1, 2, 4], MsgAction.nak⟩ :=
  (C8_retry_policy (fun _ => false)).2.1 (fun _ _ => rfl)

/-- Lookup in a JSONB-style association object, generic in the value
type (jsonbLookup and objLookup are its two instances). -/
def assocFind {β : Type} (o : List (String × β)) (k : String) : Option β :=
  (o.find? (fun p => decide (p.1 = k))).map (fun p => p.2)

/-- Key update in a JSONB-style association object: replace the binding
when the key is present, append it otherwise.  This is the semantics
both of jsonb_set at a top-level path and of the jsonb || operator with
a singleton right operand. -/
def assocUpsert {β : Type} (o : List (String × β)) (k : String) (v : β) :
    List (String × β) :=
  if o.any (fun p => decide (p.1 = k)) then
    o.map (fun p => if p.1 = k then (k, v) else p)
  else o ++ [(k, v)]

lemma jsonbLookup_eq_assocFind (o : Jsonb) (k : String) : jsonbLookup o k = assocFind o k :=
  rfl

lemma objLookup_eq_assocFind (o : List (String × String)) (k : String) :
    objLookup o k = assocFind o k :=
  rfl

lemma assocUpsert_bindings {β : Type} (o : List (String × β)) (k : String) (v : β) :
    ∀ p ∈ assocUpsert o k v, p.1 = k → p = (k, v) := by
  intro p hp hfst
  unfold assocUpsert at hp
  split at hp
  · rcases List.mem_map.mp hp with ⟨q, hq, hpq⟩
    by_cases hq1 : q.1 = k
    · rw [if_pos hq1] at hpq
      rw [← hpq]
    · rw [if_neg hq1] at hpq
      rw [← hpq] at hfst
      exact absurd hfst hq1
  · rename_i hnone
    rcases List.mem_append.mp hp with h | h
    · exact absurd (List.any_eq_true.mpr ⟨p, h, decide_eq_true hfst⟩) hnone
    · simpa using h

lemma assocUpsert_contains {β : Type} (o : List (String × β)) (k : String) (v : β) :
    (assocUpsert o k v).any (fun p => decide (p.1 = k)) = true := by
  unfold assocUpsert
  split
  · rename_i hc
    rcases List.any_eq_true.mp hc with ⟨q, hq, hq1⟩
    apply List.any_eq_true.mpr
    refine ⟨(k, v), ?_, by simp⟩
    refine List.mem_map.mpr ⟨q, hq, ?_⟩
    rw [if_pos (of_decide_eq_true hq1)]
  · apply List.any_eq_true.mpr
    exact ⟨(k, v), by simp, by simp⟩

lemma assocUpsert_find_self {β : Type} (o : List (String × β)) (k : String) (v : β) :
    assocFind (assocUpsert o k v) k = some v := by
  have hc := assocUpsert_contains o k v
  rcases List.any_eq_true.mp hc with ⟨q, hq, hq1⟩
  have hsome : ((assocUpsert o k v).find? (fun p => decide (p.1 = k))).isSome := by
    rw [List.find?_isSome]
    exact ⟨q, hq, hq1⟩
  rcases Option.isSome_iff_exists.mp hsome with ⟨w, hw⟩
  have hwmem := List.mem_of_find?_eq_some hw
  have hwpred := List.find?_some hw
  have hweq := assocUpsert_bindings o k v w hwmem (of_decide_eq_true hwpred)
  unfold assocFind
  rw [hw, hweq]
  rfl

lemma find?_mapUpdate_other {β : Type} (o : List (String × β)) (k s : String) (v : β)
    (hs : ¬s = k) :
    (o.map (fun p => if p.1 = k then (k, v) else p)).find? (fun p => decide (p.1 = s)) =
      o.find? (fun p => decide (p.1 = s)) := by
  induction o with
  | nil => rfl
  | cons q rest ih =>
      simp only [List.map_cons]
      by_cases hq : q.1 = k
      · rw [if_pos hq]
        rw [List.find?_cons_of_neg _ (by simp; intro h; exact hs h.symm),
          List.find?_cons_of_neg _ (by
            simp
            intro h
            exact hs (h ▸ hq))]
        exact ih
      · rw [if_neg hq]
        by_cases hqs : q.1 = s
        · rw [List.find?_cons_of_pos _ (by simp [hqs]),
            List.find?_cons_of_pos _ (by simp [hqs])]
        · rw [List.find?_cons_of_neg _ (by simp [hqs]),
            List.find?_cons_of_neg _ (by simp [hqs])]
          exact ih

lemma find?_appendSingle_other {β : Type} (o : List (String × β)) (k s : String) (v : β)
    (hs : ¬s = k) :
    (o ++ [(k, v)]).find? (fun p => decide (p.1 = s)) =
      o.find? (fun p => decide (p.1 = s)) := by
  induction o with
  | nil =>
      simp only [List.nil_append]
      rw [List.find?_cons_of_neg _ (by simp; intro h; exact hs h.symm)]
  | cons q rest ih =>
      simp only [List.cons_append]
      by_cases hqs : q.1 = s
      · rw [List.find?_cons_of_pos _ (by simp [hqs]),
          List.find?_cons_of_pos _ (by simp [hqs])]
      · rw [List.find?_cons_of_neg _ (by simp [hqs]),
          List.find?_cons_of_neg _ (by simp [hqs])]
        exact ih

lemma assocUpsert_find_other {β : Type} (o : List (String × β)) (k s : String) (v : β)
    (hs : ¬s = k) : assocFind (assocUpsert o k v) s = assocFind o s := by
  unfold assocFind assocUpsert
  split
  · rw [find?_mapUpdate_other o k s v hs]
  · rw [find?_appendSingle_other o k s v hs]

lemma assocUpsert_eq_self {β : Type} (o : List (String × β)) (k : String) (v : β)
    (hc : o.any (fun p => decide (p.1 = k)) = true)
    (hall : ∀ p ∈ o, p.1 = k → p = (k, v)) :
    assocUpsert o k v = o := by
  unfold assocUpsert
  rw [if_pos hc]
  have hmap : o.map (fun p => if p.1 = k then (k, v) else p) = o.map id := by
    apply List.map_congr_left
    intro p hp
    by_cases hpk : p.1 = k
    · rw [if_pos hpk]
      exact ((hall p hp hpk).symm).trans rfl
    · rw [if_neg hpk]
      rfl
  rw [hmap, List.map_id]

lemma assocUpsert_countP {β : Type} (o : List (String × β)) (k : String) (v : β)
    (h : o.countP (fun p => decide (p.1 = k)) ≤ 1) :
    (assocUpsert o k v).countP (fun p => decide (p.1 = k)) = 1 := by
  unfold assocUpsert
  split
  · rename_i hc
    have hpos : 0 < o.countP (fun p => decide (p.1 = k)) := by
      rcases List.any_eq_true.mp hc with ⟨q, hq, hq1⟩
      exact List.countP_pos_iff.mpr ⟨q, hq, hq1⟩
    have hmap : (o.map (fun p => if p.1 = k then (k, v) else p)).countP
        (fun p => decide (p.1 = k)) = o.countP (fun p => decide (p.1 = k)) := by
      rw [List.countP_map]
      apply List.countP_congr
      intro q hq
      by_cases hqk : q.1 = k
      · simp [Function.comp, hqk]
      · simp [Function.comp, hqk]
    omega
  · rename_i hnc
    have hzero : o.countP (fun p => decide (p.1 = k)) = 0 := by
      apply List.countP_eq_zero.mpr
      intro q hq hpred
      exact hnc (List.any_eq_true.mpr ⟨q, hq, hpred⟩)
    rw [List.countP_append, hzero]
    simp

/-- The current thumbnails object of a metadata map:
COALESCE(meta->thumbnails, empty object), for the cases where that value
is an object or absent (the merge statement errors otherwise). -/
def thumbsOf (m : Jsonb) : List (String × String) :=
  match jsonbLookup m ("thumbnails") with
  | some (JVal.obj o) => o
  | _ => []

/-- The thumbnail worker's single-statement metadata merge, the SET
expression of UPDATE photos: jsonb_set(COALESCE(meta, empty), thumbnails
path, COALESCE(meta->thumbnails, empty) || build_object(size, key)).
|| on a non-object left operand is a SQL error, which fails the whole
statement. -/
def mergeThumbnailMeta (meta : Option Jsonb) (sizeToken thumbKey : String) :
    Except String Jsonb :=
  let m := meta.getD []
  match jsonbLookup m ("thumbnails") with
  | some (JVal.obj o) =>
      Except.ok (assocUpsert m ("thumbnails") (JVal.obj (assocUpsert o sizeToken thumbKey)))
  | none =>
      Except.ok (assocUpsert m ("thumbnails") (JVal.obj (assocUpsert [] sizeToken thumbKey)))
  | some _ => Except.error ("cannot concatenate non-object")

lemma mergeThumbnailMeta_ok_shape (meta : Option Jsonb) (sizeToken thumbKey : String)
    (r : Jsonb) (hok : mergeThumbnailMeta meta sizeToken thumbKey = Except.ok r) :
    r = assocUpsert (meta.getD []) ("thumbnails")
      (JVal.obj (assocUpsert (thumbsOf (meta.getD [])) sizeToken thumbKey)) := by
  simp only [mergeThumbnailMeta] at hok
  unfold thumbsOf
  rcases hlook : jsonbLookup (meta.getD []) ("thumbnails") with _ | jv
  · rw [hlook] at hok
    simp only [Except.ok.injEq] at hok
    exact hok.symm
  · cases jv with
    | str s2 =>
        rw [hlook] at hok
        exact absurd hok (by simp)
    | obj o =>
        rw [hlook] at hok
        simp only [Except.ok.injEq] at hok
        exact hok.symm
    | otherJson tag =>
        rw [hlook] at hok
        exact absurd hok (by simp)

/-- Claim C9: when the merge statement succeeds, the new metadata maps
thumbnails[sizeToken] to the thumbnail key; every other top-level key
and every other thumbnail entry is unchanged; if the previous thumbnails
object had at most one binding for the size token (jsonb objects have
unique keys) the result has exactly one; and repeating the merge with
the same size token and key returns the metadata unchanged, so a
redelivered message leaves no duplicate entry. -/
theorem C9_merge_thumbnail (meta : Option Jsonb) (sizeToken thumbKey : String) (r : Jsonb)
    (hok : mergeThumbnailMeta meta sizeToken thumbKey = Except.ok r) :
    jsonbLookup r ("thumbnails") =
      some (JVal.obj (assocUpsert (thumbsOf (meta.getD [])) sizeToken thumbKey)) ∧
    objLookup (assocUpsert (thumbsOf (meta.getD [])) sizeToken thumbKey) sizeToken =
      some thumbKey ∧
    (∀ s, ¬s = sizeToken →
      objLookup (assocUpsert (thumbsOf (meta.getD [])) sizeToken thumbKey) s =
        objLookup (thumbsOf (meta.getD [])) s) ∧
    (∀ k, ¬k = ("thumbnails") → jsonbLookup r k = jsonbLookup (meta.getD []) k) ∧
    ((thumbsOf (meta.getD [])).countP (fun p => decide (p.1 = sizeToken)) ≤ 1 →
      (assocUpsert (thumbsOf (meta.getD [])) sizeToken thumbKey).countP
        (fun p => decide (p.1 = sizeToken)) = 1) ∧
    mergeThumbnailMeta (some r) sizeToken thumbKey = Except.ok r := by
  have hshape := mergeThumbnailMeta_ok_shape meta sizeToken thumbKey r hok
  refine ⟨?_, ?_, ?_, ?_, ?_, ?_⟩
  · rw [hshape, jsonbLookup_eq_assocFind]
    exact assocUpsert_find_self _ ("thumbnails") _
  · rw [objLookup_eq_assocFind]
    exact assocUpsert_find_self _ sizeToken thumbKey
  · intro s hsne
    rw [objLookup_eq_assocFind, objLookup_eq_assocFind]
    exact assocUpsert_find_other _ sizeToken s thumbKey hsne
  · intro k hk
    rw [hshape, jsonbLookup_eq_assocFind, jsonbLookup_eq_assocFind]
    exact assocUpsert_find_other _ ("thumbnails") k _ hk
  · intro hcount
    exact assocUpsert_countP _ sizeToken thumbKey hcount
  · have hlook2 : jsonbLookup r ("thumbnails") =
        some (JVal.obj (assocUpsert (thumbsOf (meta.getD [])) sizeToken thumbKey)) := by
      rw [hshape, jsonbLookup_eq_assocFind]
      exact assocUpsert_find_self _ ("thumbnails") _
    have htt : assocUpsert (assocUpsert (thumbsOf (meta.getD [])) sizeToken thumbKey)
        sizeToken thumbKey = assocUpsert (thumbsOf (meta.getD [])) sizeToken thumbKey := by
      apply assocUpsert_eq_self
      · exact assocUpsert_contains _ sizeToken thumbKey
      · exact assocUpsert_bindings _ sizeToken thumbKey
    have hrr : assocUpsert r ("thumbnails")
        (JVal.obj (assocUpsert (thumbsOf (meta.getD [])) sizeToken thumbKey)) = r := by
      rw [hshape]
      apply assocUpsert_eq_self
      · exact assocUpsert_contains _ ("thumbnails") _
      · exact assocUpsert_bindings _ ("thumbnails") _
    simp only [mergeThumbnailMeta, Option.getD_some]
    rw [hlook2]
    show Except.ok (assocUpsert r ("thumbnails")
      (JVal.obj (assocUpsert (assocUpsert (thumbsOf (meta.getD [])) sizeToken thumbKey)
        sizeToken thumbKey))) = Except.ok r
    rw [htt, hrr]

/-- Claim C9 witness: merging size 512 into a metadata map that already
carries a note and a 256 thumbnail adds exactly the 512 entry, and
re-running the merge on the result (broker redelivery) returns it
unchanged. -/
theorem C9_merge_thumbnail_witness :
    jsonbLookup
      [(("note"), JVal.str ("hi")),
       (("thumbnails"),
         JVal.obj [(("256"), ("thumb/256/u.jpg")), (("512"), ("thumb/512/u.jpg"))])]
      ("thumbnails") =
      some (JVal.obj [(("256"), ("thumb/256/u.jpg")), (("512"), ("thumb/512/u.jpg"))]) ∧
    mergeThumbnailMeta
      (some [(("note"), JVal.str ("hi")),
        (("thumbnails"),
          JVal.obj [(("256"), ("thumb/256/u.jpg")), (("512"), ("thumb/512/u.jpg"))])])
      ("512") ("thumb/512/u.jpg") =
      Except.ok [(("note"), JVal.str ("hi")),
        (("thumbnails"),
          JVal.obj [(("256"), ("thumb/256/u.jpg")), (("512"), ("thumb/512/u.jpg"))])] := by
  have h := C9_merge_thumbnail
    (some [(("note"), JVal.str ("hi")),
      (("thumbnails"), JVal.obj [(("256"), ("thumb/256/u.jpg"))])])
    ("512") ("thumb/512/u.jpg")
    [(("note"), JVal.str ("hi")),
     (("thumbnails"),
       JVal.obj [(("256"), ("thumb/256/u.jpg")), (("512"), ("thumb/512/u.jpg"))])]
    rfl
  exact ⟨h.1, h.2.2.2.2.2⟩
